import Mathlib

/-!
Verification development for the warplan report scripts
(`src/ncen_family_exec_report.py` and `src/quality_edgar_vendor_report.py`).

The scripts are shallowly embedded: a warehouse result row (a Python
`dict[str, Any]` built from the `bq` CLI's JSON output) becomes an
association list from column name to scalar `Value`; the Python helpers
(`_to_int`, `_display`, `_is_effective_value`, …) become Lean functions of
the same name (leading underscores dropped); exact rational arithmetic
stands in for Python floats (none of the verified properties depends on
binary rounding).  Scalar cell values are JSON null, string, integer or
boolean; fractional numeric cells are not exercised by the properties
below.
-/

/-- A scalar cell value of a warehouse row. -/
inductive Value where
  | none
  | str (s : String)
  | int (n : Int)
  | bool (b : Bool)
deriving DecidableEq, Repr

/-- One warehouse result row: a mapping from column name to scalar value,
modelled as an association list (the keys of a row built from one query are
distinct). -/
abbrev Record := List (String × Value)

/-- Python `row[k]`: the stored value, or failure (`KeyError`) when absent. -/
def Record.get? (r : Record) (k : String) : Option Value :=
  (r.find? (fun p => p.1 == k)).map Prod.snd

/-- Python `row.get(k)`: the stored value, `None` when the key is absent. -/
def pyGet (r : Record) (k : String) : Value :=
  (Record.get? r k).getD Value.none

/-- Python `row.get(k, d)`: the stored value, `d` when the key is absent. -/
def pyGetD (r : Record) (k : String) (d : Value) : Value :=
  (Record.get? r k).getD d

/-- The column names of a row, in storage order. -/
def Record.keys (r : Record) : List String :=
  r.map Prod.fst

/-- Python `str(...)` on a scalar: `None` prints as `"None"`, booleans as
`"True"`/`"False"`, integers in decimal. -/
def pyStr : Value → String
  | Value.none => "None"
  | Value.str s => s
  | Value.int n => toString n
  | Value.bool b => cond b "True" "False"

/-- Python truthiness `bool(...)` on a scalar: `None` and the empty string
are falsy, an integer is truthy when nonzero. -/
def pyTruthy : Value → Bool
  | Value.none => false
  | Value.str s => !(s == "")
  | Value.int n => !(n == 0)
  | Value.bool b => b

/-- Python `a or b` restricted to scalars: `a` when truthy, else `b`. -/
def pyOr (a b : Value) : Value :=
  if pyTruthy a then a else b

/-- Python `s.lower()` (ASCII case mapping). -/
def pyLower (s : String) : String :=
  ⟨s.data.map Char.toLower⟩

/-- Python `s.upper()` (ASCII case mapping). -/
def pyUpper (s : String) : String :=
  ⟨s.data.map Char.toUpper⟩

/-- Python `s.strip()`: surrounding whitespace removed (ASCII whitespace;
exotic Unicode space classes are not exercised by any verified property). -/
def pyStrip (s : String) : String :=
  ⟨((s.data.dropWhile Char.isWhitespace).reverse.dropWhile Char.isWhitespace).reverse⟩

/-- The numeric value of a decimal digit list (most significant first). -/
def natOfDigits (cs : List Char) : Nat :=
  cs.foldl (fun n c => 10 * n + (c.toNat - '0'.toNat)) 0

/-- A nonempty all-digit run parsed as a natural number. -/
def digitsToNat (cs : List Char) : Option Nat :=
  if cs ≠ [] ∧ cs.all Char.isDigit then some (natOfDigits cs) else Option.none

/-- Python `int(s)` on a string: surrounding whitespace stripped, an optional
sign, then decimal digits; `Option.none` models the raised `ValueError`.
(Exotic accepted forms — digit-group underscores, non-ASCII digits — are not
modelled; no verified property exercises them.) -/
def parseIntStr (s : String) : Option Int :=
  match (pyStrip s).data with
  | [] => Option.none
  | '+' :: cs => (digitsToNat cs).map Int.ofNat
  | '-' :: cs => (digitsToNat cs).map (fun n => -(n : Int))
  | cs => (digitsToNat cs).map Int.ofNat

/-- Python `int(x)` on a scalar: `Option.none` models the raised error
(`TypeError` for `None`, `ValueError` for a non-numeric string). -/
def pyIntOf? : Value → Option Int
  | Value.none => Option.none
  | Value.str s => parseIntStr s
  | Value.int n => some n
  | Value.bool b => some (cond b 1 0)

/-- `_to_int` (family report, lines 81–85): `int(value)` with every failure
coerced to 0.  The argument is the result of `row.get(...)`, hence an
`Option Value` with `Option.none` for an absent key (Python `None`, whose
`int(...)` also fails). -/
def to_int (v : Option Value) : Int :=
  match v with
  | Option.none => 0
  | some w => (pyIntOf? w).getD 0

/-- `_display` (family report, lines 88–89): `None` renders as the empty
string, every other value as its `str(...)` form. -/
def display (v : Value) : String :=
  if v = Value.none then "" else pyStr v

/-- `_display_value` (vendor report, lines 130–133): identical conversion in
the vendor variant. -/
def display_value (v : Value) : String :=
  if v = Value.none then "" else pyStr v

/-- Round a rational to the nearest integer, ties to even — the rounding of
Python's fixed-point formatting on the exact value. -/
def roundHalfEven (q : ℚ) : ℤ :=
  let f : ℤ := ⌊q⌋
  let r : ℚ := q - f
  if r < 1 / 2 then f
  else if 1 / 2 < r then f + 1
  else if f % 2 = 0 then f else f + 1

/-- Python `f"{x:.2f}"` on the exact rational value `x`: two decimals,
ties to even. -/
def format2 (q : ℚ) : String :=
  let n := roundHalfEven (q * 100)
  let sign := if n < 0 then "-" else ""
  let m := n.natAbs
  let ip := m / 100
  let fp := m % 100
  sign ++ toString ip ++ "." ++ (if fp < 10 then "0" else "") ++ toString fp

/-! ## Family report: scoring engine (`ncen_family_exec_report.py`) -/

/-- The tuple `_scoring_inputs` returns (lines 92–103), with named fields:
`(funds, total_filings, qes_share, avg_agent_count, edgar_agents_llc_count)`.
Shares and averages are exact rationals. -/
structure ScoringInputs where
  funds : Int
  total_filings : Int
  qes_share : ℚ
  avg_agent_count : ℚ
  edgar_agents_llc_count : Int
deriving DecidableEq, Repr

/-- `_scoring_inputs` (lines 92–103): aggregate counts over the rows of one
family.  `qes_share` falls back to `0.0` when the summed total filings are
zero (Python truthiness of `total_filings`), `avg_agent_count` to `0.0` when
the family has no rows. -/
def scoring_inputs (rows : List Record) : ScoringInputs :=
  let funds : Int := rows.length
  let total_filings : Int :=
    (rows.map (fun r => to_int (Record.get? r "total_filings_in_window"))).sum
  let qes_filings : Int :=
    (rows.map (fun r => to_int (Record.get? r "qes_filings_in_window"))).sum
  let qes_share : ℚ :=
    if total_filings ≠ 0 then (qes_filings : ℚ) / (total_filings : ℚ) * 100 else 0
  let agent_sum : Int :=
    (rows.map (fun r => to_int (Record.get? r "total_agent_groups_used_in_window"))).sum
  let avg_agent_count : ℚ :=
    if funds ≠ 0 then (agent_sum : ℚ) / (funds : ℚ) else 0
  let edgar_agents_llc_count : Int :=
    (rows.filter (fun r =>
      pyLower (pyStr (pyGetD r "ever_filed_by_edgar_agents_llc_in_window" (Value.str "")))
        == "true")).length
  ⟨funds, total_filings, qes_share, avg_agent_count, edgar_agents_llc_count⟩

/-- `_scores` (lines 106–118): the two point totals `(value_score,
switch_score)` from threshold buckets over the scoring inputs. -/
def scores (rows : List Record) : Int × Int :=
  let i := scoring_inputs rows
  let value_score : Int :=
    (if i.total_filings ≥ 1000 then 3 else if i.total_filings ≥ 300 then 2
     else if i.total_filings ≥ 100 then 1 else 0)
    + (if i.funds ≥ 10 then 2 else if i.funds ≥ 4 then 1 else 0)
  let switch_score : Int :=
    (if i.qes_share < 25 then 3 else if i.qes_share < 50 then 2
     else if i.qes_share < 70 then 1 else 0)
    + (if i.avg_agent_count ≥ 4 then 2 else if i.avg_agent_count ≥ 2 then 1 else 0)
    + (if i.edgar_agents_llc_count > 0 then 1 else 0)
  (value_score, switch_score)

/-- The `FamilyAiSummary` dataclass (lines 23–31). -/
structure FamilyAiSummary where
  openness_to_switch : String
  potential_value_to_ea : String
  conversation_script : String
  switch_reasoning : String
  likely_problems_ea_can_solve : String
  tier : String
deriving DecidableEq, Repr

/-- The fixed conversation-starter text (lines 170–174). -/
def conversation_script_text : String :=
  "We help fund families standardize filing operations across administrators and advisers. " ++
  "Could we review one recent filing cycle to pinpoint where we can reduce touches, " ++
  "improve turnaround consistency, and lower vendor-management overhead?"

/-- `summarize_family` (lines 121–183): maps the point totals to ordinal
labels through the fixed cut-point tables, builds the rationale strings and
the gated advisory sentences. -/
def summarize_family (rows : List Record) : FamilyAiSummary :=
  let i := scoring_inputs rows
  let vs := (scores rows).1
  let ss := (scores rows).2
  let potential_value : String :=
    if vs ≥ 5 then "$$$$" else if vs ≥ 3 then "$$$" else if vs ≥ 2 then "$$" else "$"
  let openness : String :=
    if ss ≥ 5 then "Very High" else if ss ≥ 4 then "High" else if ss ≥ 3 then "Medium"
    else if ss ≥ 2 then "Low" else "Very Low"
  let combined := vs + ss
  let tier : String :=
    if combined ≥ 8 then "Tier 1" else if combined ≥ 6 then "Tier 2"
    else if combined ≥ 4 then "Tier 3" else "Tier 4"
  let switch_reasoning : String :=
    "QES share is " ++ format2 i.qes_share ++ "% across " ++ toString i.funds ++
    " funds; average agent groups used is " ++ format2 i.avg_agent_count ++ "; " ++
    toString i.edgar_agents_llc_count ++ " funds also used Edgar Agents LLC."
  let likely_problems : List String :=
    (if i.avg_agent_count ≥ 3 then
      ["Fragmented vendor stack may create handoff delays and inconsistent workflows"]
     else []) ++
    (if i.qes_share < 40 then
      ["Low incumbent concentration suggests opportunity to consolidate accountability"]
     else []) ++
    (if i.edgar_agents_llc_count > 0 then
      ["Competitive vendor usage indicates split-book behavior and potential service gaps"]
     else [])
  let likely_problems :=
    if likely_problems = [] then
      ["Opportunity to improve cycle-time predictability and family-level reporting"]
    else likely_problems
  { openness_to_switch := openness
    potential_value_to_ea := potential_value
    conversation_script := conversation_script_text
    switch_reasoning := switch_reasoning
    likely_problems_ea_can_solve := String.intercalate "; " likely_problems
    tier := tier }

/-! ## Family report: grouping and record export (`render_report`) -/

/-- The grouping key of a row:
`_display(row.get("ncen_family_investment_company_name")).strip()`
(line 189). -/
def famName (r : Record) : String :=
  pyStrip (display (pyGet r "ncen_family_investment_company_name"))

/-- Append one row to its family's bucket, keeping the dict's insertion
order of first occurrence (`families.setdefault(fam, []).append(row)`,
line 191). -/
def addRow (fams : List (String × List Record)) (fam : String) (r : Record) :
    List (String × List Record) :=
  match fams with
  | [] => [(fam, [r])]
  | (k, rs) :: rest =>
    if k = fam then (k, rs ++ [r]) :: rest else (k, rs) :: addRow rest fam r

/-- The `families` dict (lines 187–191): rows bucketed by family name, rows
with a blank name dropped. -/
def buildFamilies (rows : List Record) : List (String × List Record) :=
  rows.foldl
    (fun fams row =>
      let fam := famName row
      if fam ≠ "" then addRow fams fam row else fams)
    []

/-- Code-point lexicographic `≤` on character lists — the comparison Python
`sorted` applies to strings. -/
def strLeb : List Char → List Char → Bool
  | [], _ => true
  | _ :: _, [] => false
  | a :: as, b :: bs =>
    if a.toNat < b.toNat then true
    else if b.toNat < a.toNat then false
    else strLeb as bs

/-- Code-point lexicographic order on strings. -/
def pyStrLe (a b : String) : Prop :=
  strLeb a.data b.data = true

instance pyStrLe_decidable : DecidableRel pyStrLe :=
  fun a b => instDecidableEqBool (strLeb a.data b.data) true

/-- `sorted(families.keys())` (lines 202 and 249): the family names in
lexicographic order. -/
def sortedFamilyNames (rows : List Record) : List String :=
  List.insertionSort pyStrLe ((buildFamilies rows).map Prod.fst)

/-- `families[fam_name]`: the bucket stored under a family name. -/
def famRows (rows : List Record) (name : String) : List Record :=
  match (buildFamilies rows).find? (fun p => p.1 = name) with
  | some p => p.2
  | Option.none => []

/-- `len(rows)` on line 199: the front page's "Total Funds in Dataset". -/
def total_funds (rows : List Record) : Nat :=
  rows.length

/-- The family sections of the report in render order (both the priority
list of the front page and the per-family pages iterate
`sorted(families.keys())`): each family name with its member rows. -/
def rendered_family_sections (rows : List Record) : List (String × List Record) :=
  (sortedFamilyNames rows).map (fun name => (name, famRows rows name))

/-- The fund-card records of the rendered report, in page order
(lines 253–276). -/
def rendered_fund_records (rows : List Record) : List Record :=
  (rendered_family_sections rows).flatMap Prod.snd

/-- Python dict assignment `d[k] = v`: replace in place when the key exists,
append otherwise. -/
def setKey (r : Record) (k : String) (v : Value) : Record :=
  if k ∈ Record.keys r then r.map (fun p => if p.1 = k then (k, v) else p)
  else r ++ [(k, v)]

/-- The six derived columns added to every exported record
(lines 279–284), in assignment order. -/
def family_field_names : List String :=
  ["family_tier", "family_openness_to_switch", "family_potential_value_to_ea",
   "family_conversation_script", "family_switch_reasoning",
   "family_likely_problems_ea_can_solve"]

/-- The six `(name, value)` pairs assigned onto an exported record
(lines 279–284). -/
def family_field_values (summary : FamilyAiSummary) : List (String × Value) :=
  [("family_tier", Value.str summary.tier),
   ("family_openness_to_switch", Value.str summary.openness_to_switch),
   ("family_potential_value_to_ea", Value.str summary.potential_value_to_ea),
   ("family_conversation_script", Value.str summary.conversation_script),
   ("family_switch_reasoning", Value.str summary.switch_reasoning),
   ("family_likely_problems_ea_can_solve",
    Value.str summary.likely_problems_ea_can_solve)]

/-- `export_row = dict(r)` followed by the six assignments (lines 278–284). -/
def exportRow (summary : FamilyAiSummary) (r : Record) : Record :=
  (family_field_values summary).foldl (fun acc p => setKey acc p.1 p.2) r

/-- `flat_export` as returned by `render_report` (lines 194, 249–285,
333): every fund row of every family, in sorted-family page order, each
extended with its family's six derived columns. -/
def flat_export (rows : List Record) : List Record :=
  (rendered_family_sections rows).flatMap
    (fun p => p.2.map (exportRow (summarize_family p.2)))

/-! ## Family report: the two-level delimited sub-field parse -/

/-- `needle` occurs as a prefix of `hay` (character lists). -/
def isPrefixL : List Char → List Char → Bool
  | [], _ => true
  | _ :: _, [] => false
  | a :: as, b :: bs => a == b && isPrefixL as bs

/-- `needle` occurs somewhere inside `hay` (character lists). -/
def isInfixL (needle : List Char) : List Char → Bool
  | [] => isPrefixL needle []
  | c :: cs => isPrefixL needle (c :: cs) || isInfixL needle cs

/-- Python `needle in hay` on strings. -/
def pyContains (hay needle : String) : Bool :=
  isInfixL needle.data hay.data

/-- The pieces around the first occurrence of `sep` in `s`;
`Option.none` when `sep` (nonempty) does not occur. -/
def splitOnceL (sep : List Char) : List Char → Option (List Char × List Char)
  | [] => if sep = [] then some ([], []) else Option.none
  | c :: cs =>
    if isPrefixL sep (c :: cs) then some ([], (c :: cs).drop sep.length)
    else (splitOnceL sep cs).map (fun p => (c :: p.1, p.2))

/-- Python `s.split(sep, 1)` together with the guarding `sep in s` check:
`some (before, after)` around the first occurrence, `Option.none` when `sep`
does not occur. -/
def pySplitOnce (s sep : String) : Option (String × String) :=
  (splitOnceL sep.data s.data).map (fun p => (⟨p.1⟩, ⟨p.2⟩))

/-- Python `s.split(sep)` for a nonempty separator (fuel-bounded recursion;
`s.length + 1` splits always suffice). -/
def splitAllAux (sep : List Char) : Nat → List Char → List (List Char)
  | 0, s => [s]
  | Nat.succ fuel, s =>
    match splitOnceL sep s with
    | Option.none => [s]
    | some p => p.1 :: splitAllAux sep fuel p.2

/-- Python `s.split(sep)` on strings (nonempty separator). -/
def pySplitAll (s sep : String) : List String :=
  (splitAllAux sep.data (s.data.length + 1) s.data).map (fun cs => ⟨cs⟩)

/-- `qes_form_counts.get(ft, 0) + count_val` stored back under `ft`
(line 227), keeping dict insertion order. -/
def bump_count (counts : List (String × Int)) (ft : String) (dv : Int) :
    List (String × Int) :=
  match counts with
  | [] => [(ft, dv)]
  | (k, n) :: rest =>
    if k = ft then (k, n + dv) :: rest else (k, n) :: bump_count rest ft dv

/-- The body of the inner loop over `pairs.split("||")` (lines 218–227): a
segment without the `"::"` separator is skipped; the count portion falls
back to 0 when it does not parse as an integer; an empty form type is
skipped. -/
def process_pair_segment (counts : List (String × Int)) (part : String) :
    List (String × Int) :=
  match pySplitOnce part "::" with
  | Option.none => counts
  | some (form_type, count_text) =>
    let count_val := (parseIntStr count_text).getD 0
    if form_type ≠ "" then bump_count counts form_type count_val else counts

/-- Lines 214–227 for one row: fold every segment of its
`qes_form_type_count_pairs` field into the running form-type counts
(a falsy/empty field contributes nothing). -/
def accumulate_form_counts (counts : List (String × Int)) (r : Record) :
    List (String × Int) :=
  let pairs := display (pyGet r "qes_form_type_count_pairs")
  if pairs = "" then counts
  else (pySplitAll pairs "||").foldl process_pair_segment counts

/-! ## CSV export (`write_csv` of both variants) -/

/-- What a `write_csv` run leaves on disk: an empty file (zero bytes) or a
header row followed by the serialized records. -/
inductive CsvFileContents where
  | emptyFile
  | table (fieldnames : List String) (rows : List Record)
deriving DecidableEq, Repr

/-- `write_csv` of the family report (lines 336–345): an empty record list
writes an empty file; otherwise the keys of the first record are the
header and every record is written as one row. -/
def write_csv_family (rows : List Record) : CsvFileContents :=
  match rows with
  | [] => CsvFileContents.emptyFile
  | r :: _ => CsvFileContents.table (Record.keys r) rows

/-- `write_csv` of the vendor report (lines 225–236): same shape, with every
cell passed through `_display_value` before writing. -/
def write_csv_vendor (rows : List Record) : CsvFileContents :=
  match rows with
  | [] => CsvFileContents.emptyFile
  | r :: _ =>
    CsvFileContents.table (Record.keys r)
      (rows.map (fun row => row.map (fun p => (p.1, Value.str (display_value p.2)))))

/-! ## Family report: target resolver (`main`, lines 348–362) -/

/-- `_normalized` (lines 35–36): `(value or "").strip()` — an absent value
becomes the empty string, a present one is trimmed. -/
def normalized (v : Option String) : String :=
  pyStrip (v.getD "")

/-- `_is_effective_value` (lines 39–41): trimmed and lowercased, the value
must be nonempty and none of the sentinel words. -/
def is_effective_value (value : String) : Bool :=
  let lowered := pyLower (pyStrip value)
  !(lowered == "") &&
    !(lowered ∈ ["(unset)", "unset", "none", "null"])

/-- The inputs the resolver draws on in one run: the `--project-id` flag,
the two environment variables, and the `gcloud config get-value project`
result (exit code and stdout). -/
structure ResolverEnv where
  cli_project_id : Option String
  bq_project_id : Option String
  google_cloud_project : Option String
  gcloud_exit : Int
  gcloud_stdout : String

/-- `args.project_id` (line 350): the explicit flag, with the
`BQ_PROJECT_ID` environment variable as the argparse default. -/
def argProjectId (e : ResolverEnv) : Option String :=
  match e.cli_project_id with
  | some s => some s
  | Option.none => e.bq_project_id

/-- `_detect_default_project_id` (lines 44–54): `GOOGLE_CLOUD_PROJECT` when
effective, else the trimmed `gcloud` stdout when the command succeeded and
the value is effective, else `""`. -/
def detect_default_project_id (e : ResolverEnv) : String :=
  let env_project := normalized e.google_cloud_project
  if is_effective_value env_project then env_project
  else if e.gcloud_exit = 0 ∧ is_effective_value (pyStrip e.gcloud_stdout) then
    pyStrip e.gcloud_stdout
  else ""

/-- The resolution steps of `main` (lines 358–362): `some id` is the project
the query will run under, `Option.none` the fatal `SystemExit` raised before
any query is issued. -/
def resolve_project (e : ResolverEnv) : Option String :=
  let project_id := normalized (argProjectId e)
  let project_id :=
    if is_effective_value project_id then project_id
    else detect_default_project_id e
  if is_effective_value project_id then some project_id else Option.none

/-- The three candidate values of the resolution order — explicit argument,
environment variable, local-tool output — each trimmed; a failed `gcloud`
invocation contributes the (never effective) empty string. -/
def resolver_candidates (e : ResolverEnv) : List String :=
  [normalized (argProjectId e),
   normalized e.google_cloud_project,
   if e.gcloud_exit = 0 then pyStrip e.gcloud_stdout else ""]

/-! ## Vendor report: scoring (`quality_edgar_vendor_report.py`) -/

/-- The vendor name constant (line 24). -/
def QES_NAME : String := "QUALITY EDGAR SOLUTIONS"

/-- The `AiAssessment` dataclass (lines 30–34). -/
structure AiAssessment where
  money_rank : String
  switch_rank : String
  reasoning : String
deriving DecidableEq, Repr

/-- The fixed high-value form set (line 77). -/
def high_value_forms : List String :=
  ["S-1", "S-3", "10-K", "10-Q", "8-K", "DEF 14A", "424B"]

/-- `complex_form_bonus` (line 78): 1 when any member of the high-value set
occurs as a substring (`tag in last_form.upper()`) of the uppercased last
form type, else 0. -/
def complex_form_bonus (last_form : String) : Int :=
  if high_value_forms.any (fun tag => pyContains (pyUpper last_form) tag)
  then 1 else 0

/-- The proposition "`needle` is a contiguous substring of `hay`". -/
def Substr (needle hay : String) : Prop :=
  ∃ pre post, hay.data = pre ++ needle.data ++ post

/-- Python `float(x)` on a decimal string literal: surrounding whitespace
stripped, optional sign, digits with an optional single point; at least one
digit overall.  (Exponents, `inf`/`nan` and underscores are not modelled; no
verified property exercises them.) -/
def parseRatCore (cs : List Char) : Option ℚ :=
  match splitOnceL ['.'] cs with
  | Option.none =>
    if cs ≠ [] ∧ cs.all Char.isDigit then some ((natOfDigits cs : ℚ))
    else Option.none
  | some (ip, fp) =>
    if (ip ++ fp) ≠ [] ∧ (ip ++ fp).all Char.isDigit then
      some ((natOfDigits ip : ℚ) + (natOfDigits fp : ℚ) / ((10 : ℚ) ^ fp.length))
    else Option.none

/-- Python `float(s)` on a string (decimal literals, see `parseRatCore`). -/
def parseRatStr (s : String) : Option ℚ :=
  match (pyStrip s).data with
  | '+' :: cs => parseRatCore cs
  | '-' :: cs => (parseRatCore cs).map Neg.neg
  | cs => parseRatCore cs

/-- Python `float(x)` on a scalar: `Option.none` models the raised error. -/
def pyFloatOf? : Value → Option ℚ
  | Value.none => Option.none
  | Value.str s => parseRatStr s
  | Value.int n => some (n : ℚ)
  | Value.bool b => some (cond b 1 0)

/-- `score_company` (lines 70–115): strict field extraction (`row[...]`,
`int(...)`, `float(...)` — `Option.none` models any raised error), the two
point totals, and their cut-point labels.  `last_form` is
`str(row.get("qes_last_form_type", "") or "")`. -/
def score_company (row : Record) : Option AiAssessment := do
  let total ← pyIntOf? (← Record.get? row "total_filings")
  let qes_pct ← pyFloatOf? (← Record.get? row "qes_percentage")
  let other_agents ← pyIntOf? (← Record.get? row "other_agents_count")
  let dominantV ← Record.get? row "is_qes_dominant_filer"
  let dominant := pyTruthy dominantV
  let last_form := pyStr (pyOr (pyGetD row "qes_last_form_type" (Value.str "")) (Value.str ""))
  let revenue_score : Int :=
    (if total ≥ 80 then 3 else if total ≥ 40 then 2 else if total ≥ 15 then 1 else 0)
    + (if qes_pct ≥ 70 then 2 else if qes_pct ≥ 35 then 1 else 0)
    + complex_form_bonus last_form
  let money_rank : String :=
    if revenue_score ≥ 6 then "$$$$" else if revenue_score ≥ 4 then "$$$"
    else if revenue_score ≥ 2 then "$$" else "$"
  let switch_score : Int :=
    (if qes_pct < 20 then 3 else if qes_pct < 40 then 2
     else if qes_pct < 55 then 1 else 0)
    + (if other_agents ≥ 3 then 2 else if other_agents ≥ 1 then 1 else 0)
    + (if !dominant then 1 else 0)
  let switch_rank : String :=
    if switch_score ≥ 6 then "Very Likely" else if switch_score ≥ 4 then "Likely"
    else if switch_score ≥ 3 then "Possible" else if switch_score ≥ 2 then "Low"
    else "Very Low"
  let reasoning : String :=
    "Total filings=" ++ toString total ++ ", " ++ QES_NAME ++ " share=" ++
    format2 qes_pct ++ "%, other agents=" ++ toString other_agents ++
    ", dominant=" ++ (cond dominant "True" "False") ++ "."
  pure ⟨money_rank, switch_rank, reasoning⟩
/-! ## Substring and split lemmas -/

/-- `isPrefixL` decides the prefix relation on character lists. -/
theorem isPrefixL_iff (n : List Char) : ∀ h, isPrefixL n h = true ↔ ∃ post, h = n ++ post := by
  induction n with
  | nil => intro h; simp [isPrefixL]
  | cons a as ih =>
    intro h
    cases h with
    | nil => simp [isPrefixL]
    | cons b bs =>
      simp only [isPrefixL, Bool.and_eq_true, beq_iff_eq, List.cons_append]
      constructor
      · rintro ⟨rfl, hp⟩
        obtain ⟨post, rfl⟩ := (ih bs).1 hp
        exact ⟨post, rfl⟩
      · rintro ⟨post, h2⟩
        injection h2 with h3 h4
        subst h3
        exact ⟨rfl, (ih bs).2 ⟨post, h4⟩⟩

/-- `isInfixL` decides the substring relation on character lists. -/
theorem isInfixL_iff (n : List Char) : ∀ h, isInfixL n h = true ↔ ∃ pre post, h = pre ++ n ++ post := by
  intro h
  induction h with
  | nil =>
    simp only [isInfixL, isPrefixL_iff]
    constructor
    · rintro ⟨post, h2⟩
      exact ⟨[], post, by simpa using h2⟩
    · rintro ⟨pre, post, h2⟩
      refine ⟨post, ?_⟩
      rcases List.append_eq_nil.1 h2.symm with ⟨h3, h4⟩
      rcases List.append_eq_nil.1 h3 with ⟨h5, h6⟩
      simp [h4, h5, h6]
  | cons c cs ih =>
    simp only [isInfixL, Bool.or_eq_true, isPrefixL_iff, ih]
    constructor
    · rintro (⟨post, hpost⟩ | ⟨pre, post, hpost⟩)
      · exact ⟨[], post, by simpa using hpost⟩
      · exact ⟨c :: pre, post, by simp [hpost]⟩
    · rintro ⟨pre, post, heq⟩
      cases pre with
      | nil => exact Or.inl ⟨post, by simpa using heq⟩
      | cons x xs =>
        injection heq with h1 h2
        subst h1
        exact Or.inr ⟨xs, post, h2⟩

/-- `pyContains` decides `Substr`. -/
theorem pyContains_iff (hay needle : String) : pyContains hay needle = true ↔ Substr needle hay := by
  simp [pyContains, Substr, isInfixL_iff]

/-- A nonexistent separator makes `splitOnceL` return `Option.none`. -/
theorem splitOnceL_eq_none (sep : List Char) :
    ∀ s, splitOnceL sep s = Option.none ↔ isInfixL sep s = false := by
  intro s
  induction s with
  | nil => cases sep <;> simp [splitOnceL, isInfixL, isPrefixL]
  | cons c cs ih =>
    simp only [splitOnceL, isInfixL]
    by_cases hp : isPrefixL sep (c :: cs) = true
    · simp [hp]
    · simp only [Bool.not_eq_true] at hp
      simp [hp, Option.map_eq_none', ih]
/-! ## Claim theorems: simple safety and rendering claims -/

/-- C4: a family group whose summed `total_filings_in_window` is zero gets
`qes_share = 0.0` instead of a division error, and a group with zero funds
gets `avg_agent_count = 0.0`; both divisions of the scoring engine are
guarded (the embedded functions are total by construction).  Both
antecedents hold, e.g., for the empty row list (see the witness). -/
theorem scoring_division_guard (rows : List Record) :
    ((scoring_inputs rows).total_filings = 0 → (scoring_inputs rows).qes_share = 0) ∧
    ((scoring_inputs rows).funds = 0 → (scoring_inputs rows).avg_agent_count = 0) := by
  constructor <;> intro h <;>
    simp only [scoring_inputs] at h ⊢ <;> simp [h]

/-- Instance of `scoring_division_guard` at the empty family. -/
theorem scoring_division_guard_witness :
    (scoring_inputs []).qes_share = 0 ∧ (scoring_inputs []).avg_agent_count = 0 :=
  ⟨(scoring_division_guard []).1 (by decide), (scoring_division_guard []).2 (by decide)⟩

/-- C8: in both report variants, `write_csv` on an empty enriched record
sequence writes an empty file (zero bytes), not a header-only file. -/
theorem write_csv_empty_input :
    write_csv_family [] = CsvFileContents.emptyFile ∧
    write_csv_vendor [] = CsvFileContents.emptyFile :=
  ⟨rfl, rfl⟩

/-- C9: the display conversion of both variants maps `None` (an absent key
or a null cell) to the empty string — never the literal text `"None"` or
`"null"` — and every other value to its `str(...)` form. -/
theorem display_of_null (r : Record) (k : String) (v : Value) :
    (Record.get? r k = Option.none → display (pyGet r k) = "") ∧
    display Value.none = "" ∧ display_value Value.none = "" ∧
    (v ≠ Value.none → display v = pyStr v ∧ display_value v = pyStr v) := by
  refine ⟨fun h => ?_, rfl, rfl, fun h => ⟨?_, ?_⟩⟩
  · simp [pyGet, h, display]
  · simp [display, h]
  · simp [display_value, h]

/-- C10: family-level scoring is total on arbitrary records — `_to_int`
coerces every unparseable value (non-numeric string, null, absent key) to 0,
the embedded `scoring_inputs`/`scores`/`summarize_family` are total Lean
functions, and every label of the returned summary comes from its fixed
label set. -/
theorem summarize_family_total (rows : List Record) :
    (summarize_family rows).potential_value_to_ea ∈ ["$", "$$", "$$$", "$$$$"] ∧
    (summarize_family rows).openness_to_switch ∈
      ["Very Low", "Low", "Medium", "High", "Very High"] ∧
    (summarize_family rows).tier ∈ ["Tier 1", "Tier 2", "Tier 3", "Tier 4"] ∧
    (∀ s, parseIntStr s = Option.none → to_int (some (Value.str s)) = 0) ∧
    to_int (some Value.none) = 0 ∧ to_int Option.none = 0 := by
  refine ⟨?_, ?_, ?_, fun s h => by simp [to_int, pyIntOf?, h], rfl, rfl⟩ <;>
    simp only [summarize_family] <;> split_ifs <;> simp
/-! ## Claim theorems: vendor high-value bonus (C5) -/

/-- The counterexample row for the high-value-form bonus: its
`qes_last_form_type` `"10-K/A"` is not a member of the high-value set, yet
the bonus fires (substring match on `"10-K"`), lifting the revenue score
from 3 to 4 and the money rank from `"$$"` to `"$$$"`. -/
def c5_row : Record :=
  [("total_filings", Value.int 80), ("qes_percentage", Value.int 0),
   ("other_agents_count", Value.int 0), ("is_qes_dominant_filer", Value.bool false),
   ("qes_last_form_type", Value.str "10-K/A")]

/-- C5 (counterexample): the bonus is granted for `"10-K/A"`, which is not a
member of the fixed high-value set — refuting the claim that the bonus is
granted exactly on set membership. -/
theorem complex_form_bonus_not_membership :
    complex_form_bonus "10-K/A" = 1 ∧ ¬ "10-K/A" ∈ high_value_forms ∧
    (score_company c5_row).map AiAssessment.money_rank = some "$$$" := by
  refine ⟨by decide, by decide, by decide⟩

/-- C5 (amended): the +1 high-value-form bonus is granted exactly when some
member of the fixed set occurs as a contiguous substring of the uppercased
last form type; a form whose uppercase contains no member gets no bonus. -/
theorem complex_form_bonus_substring (s : String) :
    (complex_form_bonus s = 1 ↔ ∃ tag ∈ high_value_forms, Substr tag (pyUpper s)) ∧
    (complex_form_bonus s = 0 ↔ ∀ tag ∈ high_value_forms, ¬ Substr tag (pyUpper s)) := by
  have key : high_value_forms.any (fun tag => pyContains (pyUpper s) tag) = true ↔
      ∃ tag ∈ high_value_forms, Substr tag (pyUpper s) := by
    simp only [List.any_eq_true, pyContains_iff]
  by_cases h : ∃ tag ∈ high_value_forms, Substr tag (pyUpper s)
  · rw [complex_form_bonus, if_pos (key.2 h)]
    refine ⟨iff_of_true rfl h, ?_, ?_⟩
    · intro h10
      exact absurd h10 one_ne_zero
    · intro hall
      obtain ⟨t, ht, hs⟩ := h
      exact absurd hs (hall t ht)
  · rw [complex_form_bonus, if_neg (fun hc => h (key.1 hc))]
    push_neg at h
    refine ⟨⟨?_, ?_⟩, iff_of_true rfl h⟩
    · intro h01
      exact absurd h01.symm one_ne_zero
    · intro hex
      obtain ⟨t, ht, hs⟩ := hex
      exact absurd hs (h t ht)
/-! ## Claim theorems: delimited sub-field parsing (C7) -/

/-- C7: parsing the `qes_form_type_count_pairs` sub-field never raises (the
embedded functions are total); a segment lacking the `"::"` separator is
skipped without error, and a segment whose count portion does not parse as
an integer contributes 0 (an empty form type is skipped either way, matching
the `if form_type:` guard). -/
theorem pair_segment_tolerance (counts : List (String × Int)) (part : String) :
    (pyContains part "::" = false → process_pair_segment counts part = counts) ∧
    (∀ ft ct, pySplitOnce part "::" = some (ft, ct) → parseIntStr ct = Option.none →
      process_pair_segment counts part =
        if ft ≠ "" then bump_count counts ft 0 else counts) := by
  constructor
  · intro h
    have hn : splitOnceL "::".data part.data = Option.none :=
      (splitOnceL_eq_none _ _).2 (by simpa [pyContains] using h)
    simp [process_pair_segment, pySplitOnce, hn]
  · intro ft ct hs hp
    simp [process_pair_segment, hs, hp]

/-- Instances of `pair_segment_tolerance`: a separator-free segment is
skipped, and a segment with an unparseable count lands with count 0. -/
theorem pair_segment_tolerance_witness :
    process_pair_segment [("A", 7)] "junk-segment" = [("A", 7)] ∧
    process_pair_segment [("A", 7)] "10-K::many" = [("A", 7), ("10-K", 0)] := by
  constructor
  · exact (pair_segment_tolerance [("A", 7)] "junk-segment").1 (by decide)
  · rw [(pair_segment_tolerance [("A", 7)] "10-K::many").2 "10-K" "many"
      (by decide) (by decide)]
    decide
/-! ## Claim theorems: target resolver (C3) -/

/-- C3: the resolver returns the first effective candidate in the order
{explicit `--project-id` argument (with `BQ_PROJECT_ID` as its argparse
default), `GOOGLE_CLOUD_PROJECT`, gcloud-configured project}, where
effective means nonempty and not a sentinel word after trimming and
lowercasing; it raises the fatal `SystemExit` (before any query is issued)
exactly when no candidate is effective.  A failed `gcloud` invocation
contributes the never-effective empty string. -/
theorem resolve_project_first_effective (e : ResolverEnv) :
    resolve_project e = (resolver_candidates e).find? (fun v => is_effective_value v) ∧
    (resolve_project e = Option.none ↔
      ∀ v ∈ resolver_candidates e, ¬ is_effective_value v) := by
  have hempty : is_effective_value "" = false := by decide
  have hfind : resolve_project e =
      (resolver_candidates e).find? (fun v => is_effective_value v) := by
    unfold resolve_project resolver_candidates detect_default_project_id
    by_cases h1 : is_effective_value (normalized (argProjectId e))
    · simp [h1, List.find?]
    · by_cases h2 : is_effective_value (normalized e.google_cloud_project)
      · simp [h1, h2, List.find?]
      · by_cases h3 : e.gcloud_exit = 0 ∧ is_effective_value (pyStrip e.gcloud_stdout)
        · simp [h1, h2, h3.1, h3.2, List.find?]
        · by_cases h4 : e.gcloud_exit = 0
          · have h5 : ¬ is_effective_value (pyStrip e.gcloud_stdout) :=
              fun hc => h3 ⟨h4, hc⟩
            simp [h1, h2, h4, h5, hempty, List.find?]
          · simp [h1, h2, h4, hempty, List.find?]
  refine ⟨hfind, ?_⟩
  rw [hfind]
  exact List.find?_eq_none
/-- Unfolding lemma for `strLeb` on two cons cells. -/
theorem strLeb_cons (a b : Char) (as bs : List Char) :
    strLeb (a :: as) (b :: bs) = true ↔
      a.toNat < b.toNat ∨ (a.toNat = b.toNat ∧ strLeb as bs = true) := by
  simp only [strLeb]
  split_ifs with h1 h2
  · exact iff_of_true rfl (Or.inl h1)
  · refine iff_of_false (by simp) ?_
    rintro (h | ⟨h, _⟩) <;> omega
  · have he : a.toNat = b.toNat := by omega
    constructor
    · intro h
      exact Or.inr ⟨he, h⟩
    · rintro (h | ⟨_, h⟩)
      · omega
      · exact h

/-- `strLeb` is total. -/
theorem strLeb_total : ∀ as bs : List Char, strLeb as bs = true ∨ strLeb bs as = true := by
  intro as
  induction as with
  | nil => intro bs; exact Or.inl rfl
  | cons a as ih =>
    intro bs
    cases bs with
    | nil => exact Or.inr rfl
    | cons b bs =>
      rw [strLeb_cons, strLeb_cons]
      rcases Nat.lt_trichotomy a.toNat b.toNat with h | h | h
      · exact Or.inl (Or.inl h)
      · rcases ih bs with h2 | h2
        · exact Or.inl (Or.inr ⟨h, h2⟩)
        · exact Or.inr (Or.inr ⟨h.symm, h2⟩)
      · exact Or.inr (Or.inl h)

/-- `strLeb` is transitive. -/
theorem strLeb_trans :
    ∀ as bs cs : List Char, strLeb as bs = true → strLeb bs cs = true → strLeb as cs = true := by
  intro as
  induction as with
  | nil => intro bs cs _ _; rfl
  | cons a as ih =>
    intro bs cs hab hbc
    cases bs with
    | nil => simp [strLeb] at hab
    | cons b bs =>
      cases cs with
      | nil => simp [strLeb] at hbc
      | cons c cs =>
        rw [strLeb_cons] at hab hbc ⊢
        rcases hab with h1 | ⟨h1, h1r⟩ <;> rcases hbc with h2 | ⟨h2, h2r⟩
        · exact Or.inl (by omega)
        · exact Or.inl (by omega)
        · exact Or.inl (by omega)
        · exact Or.inr ⟨by omega, ih bs cs h1r h2r⟩

instance pyStrLe_total : IsTotal String pyStrLe :=
  ⟨fun a b => strLeb_total a.data b.data⟩

instance pyStrLe_trans : IsTrans String pyStrLe :=
  ⟨fun a b c => strLeb_trans a.data b.data c.data⟩
/-! ## Claim theorems: deterministic family ordering (C6) -/

/-- The three-record end-to-end example: two funds in "Alpha Fund"
(filings 50 and 60, QES filings 10 and 15) and one in "Beta Fund"
(filings 5, QES filings 5). -/
def c6_rows : List Record :=
  [[("ncen_family_investment_company_name", Value.str "Alpha Fund"),
    ("total_filings_in_window", Value.int 50), ("qes_filings_in_window", Value.int 10)],
   [("ncen_family_investment_company_name", Value.str "Alpha Fund"),
    ("total_filings_in_window", Value.int 60), ("qes_filings_in_window", Value.int 15)],
   [("ncen_family_investment_company_name", Value.str "Beta Fund"),
    ("total_filings_in_window", Value.int 5), ("qes_filings_in_window", Value.int 5)]]

/-- C6: both the priority list and the per-family sections iterate
`sorted(families.keys())`, so families render in lexicographically sorted
order by name on every input (and, the function being pure, identically
across repeated runs); on the Alpha/Beta example the summary reports
3 total funds and the family order is ["Alpha Fund", "Beta Fund"]. -/
theorem family_render_order (rows : List Record) :
    List.Sorted pyStrLe (sortedFamilyNames rows) ∧
    (rendered_family_sections rows).map Prod.fst = sortedFamilyNames rows ∧
    total_funds c6_rows = 3 ∧
    sortedFamilyNames c6_rows = ["Alpha Fund", "Beta Fund"] := by
  refine ⟨List.sorted_insertionSort _ _, ?_, rfl, by decide⟩
  rw [rendered_family_sections, List.map_map]
  exact List.map_id' _
/-! ## Claim theorems: the worked scoring example (C1) -/

/-- C1: any family of 5 records summing to 1200 total filings, 200 QES
filings and 20 agent groups, with no record marked as ever filed by Edgar
Agents LLC, scores value 4 (bucket "≥1000" +3, funds "≥4" +1), label "$$$",
and switch 5 (qes_share 200/1200·100 = 50/3 < 25 → +3, avg_agent_count
20/5 = 4 ≥ 4 → +2), label "Very High". -/
theorem family_example_scores (rows : List Record)
    (hlen : rows.length = 5)
    (htf : (rows.map (fun r => to_int (Record.get? r "total_filings_in_window"))).sum = 1200)
    (hqf : (rows.map (fun r => to_int (Record.get? r "qes_filings_in_window"))).sum = 200)
    (hag : (rows.map (fun r =>
      to_int (Record.get? r "total_agent_groups_used_in_window"))).sum = 20)
    (hev : ∀ r ∈ rows,
      pyLower (pyStr (pyGetD r "ever_filed_by_edgar_agents_llc_in_window" (Value.str "")))
        ≠ "true") :
    scores rows = (4, 5) ∧
    (summarize_family rows).potential_value_to_ea = "$$$" ∧
    (summarize_family rows).openness_to_switch = "Very High" ∧
    (scoring_inputs rows).qes_share = 50 / 3 ∧
    (scoring_inputs rows).avg_agent_count = 4 := by
  have hfilter : rows.filter (fun r =>
      pyLower (pyStr (pyGetD r "ever_filed_by_edgar_agents_llc_in_window" (Value.str "")))
        == "true") = [] := by
    rw [List.filter_eq_nil_iff]
    intro r hr
    simpa using hev r hr
  have hsi : scoring_inputs rows = ⟨5, 1200, 50 / 3, 4, 0⟩ := by
    rw [scoring_inputs, hlen, htf, hqf, hag, hfilter]
    norm_num
  have hsc : scores rows = (4, 5) := by
    rw [scores, hsi]
    norm_num
  refine ⟨hsc, ?_, ?_, by rw [hsi], by rw [hsi]⟩ <;>
    rw [summarize_family, hsc] <;> norm_num
/-! ## Structural lemmas for the family grouping (toward C2) -/

/-- Total number of rows stored across the family buckets. -/
def sizeSum (fams : List (String × List Record)) : Nat :=
  (fams.map (fun p => p.2.length)).sum

/-- The loop body of `buildFamilies` as a named function. -/
def buildStep (fams : List (String × List Record)) (row : Record) :
    List (String × List Record) :=
  let fam := famName row
  if fam ≠ "" then addRow fams fam row else fams

/-- `buildFamilies` is the left fold of `buildStep`. -/
theorem buildFamilies_eq_foldl (rows : List Record) :
    buildFamilies rows = rows.foldl buildStep [] := rfl

/-- `addRow` grows the stored row count by one. -/
theorem addRow_sizeSum (fams : List (String × List Record)) (f : String) (r : Record) :
    sizeSum (addRow fams f r) = sizeSum fams + 1 := by
  induction fams with
  | nil => simp [addRow, sizeSum]
  | cons p rest ih =>
    obtain ⟨k, b⟩ := p
    by_cases h : k = f
    · simp [addRow, h, sizeSum]
      omega
    · simp only [addRow, if_neg h, sizeSum, List.map_cons, List.sum_cons]
      have h2 := ih
      simp only [sizeSum] at h2
      omega

/-- Folding `buildStep` adds exactly one stored row per input row with a
nonblank family name. -/
theorem foldl_buildStep_sizeSum (rows : List Record) :
    ∀ acc, sizeSum (rows.foldl buildStep acc) =
      sizeSum acc + (rows.filter (fun r => famName r ≠ "")).length := by
  induction rows with
  | nil => intro acc; simp
  | cons r rest ih =>
    intro acc
    simp only [List.foldl_cons, List.filter_cons]
    by_cases h : famName r ≠ ""
    · have hb : buildStep acc r = addRow acc (famName r) r := by
        simp [buildStep, h]
      rw [hb, ih, addRow_sizeSum]
      simp [h]
      omega
    · have hb : buildStep acc r = acc := by
        simp [buildStep, h]
      rw [hb, ih]
      simp [h]

/-- One stored row per nonblank-family input row. -/
theorem buildFamilies_sizeSum (rows : List Record) :
    sizeSum (buildFamilies rows) = (rows.filter (fun r => famName r ≠ "")).length := by
  rw [buildFamilies_eq_foldl, foldl_buildStep_sizeSum]
  simp [sizeSum]
/-- `addRow` keeps the key list when the key is present and appends it
otherwise. -/
theorem addRow_keys (fams : List (String × List Record)) (f : String) (r : Record) :
    (addRow fams f r).map Prod.fst =
      if f ∈ fams.map Prod.fst then fams.map Prod.fst else fams.map Prod.fst ++ [f] := by
  induction fams with
  | nil => simp [addRow]
  | cons p rest ih =>
    obtain ⟨k, b⟩ := p
    by_cases h : k = f
    · simp [addRow, h]
    · simp only [addRow, if_neg h, List.map_cons, ih, List.mem_cons]
      have hkf : ¬ f = k := fun he => h he.symm
      by_cases h2 : f ∈ rest.map Prod.fst
      · simp [h2, hkf]
      · simp [h2, hkf]

/-- Folding `buildStep` keeps the family keys duplicate-free. -/
theorem foldl_buildStep_keys_nodup (rows : List Record) :
    ∀ acc, (acc.map Prod.fst).Nodup →
      ((rows.foldl buildStep acc).map Prod.fst).Nodup := by
  induction rows with
  | nil => intro acc h; simpa using h
  | cons r rest ih =>
    intro acc h
    simp only [List.foldl_cons]
    refine ih _ ?_
    by_cases hf : famName r ≠ ""
    · have hb : buildStep acc r = addRow acc (famName r) r := by
        simp [buildStep, hf]
      rw [hb, addRow_keys]
      by_cases h2 : famName r ∈ acc.map Prod.fst
      · simpa [h2] using h
      · rw [if_neg h2, List.nodup_append]
        refine ⟨h, List.nodup_singleton _, ?_⟩
        intro a ha hb2
        simp only [List.mem_singleton] at hb2
        exact h2 (hb2 ▸ ha)
    · have hb : buildStep acc r = acc := by
        simp [buildStep, hf]
      rw [hb]
      exact h

/-- The family keys of `buildFamilies` are duplicate-free. -/
theorem buildFamilies_keys_nodup (rows : List Record) :
    ((buildFamilies rows).map Prod.fst).Nodup := by
  rw [buildFamilies_eq_foldl]
  exact foldl_buildStep_keys_nodup rows [] (by simp)
/-- Every row stored in an `addRow` result was stored before or is the
added row. -/
theorem addRow_members (fams : List (String × List Record)) (f : String) (x : Record) :
    ∀ q ∈ addRow fams f x, ∀ r ∈ q.2, (∃ q2 ∈ fams, r ∈ q2.2) ∨ r = x := by
  induction fams with
  | nil =>
    intro q hq r hr
    simp only [addRow, List.mem_singleton] at hq
    subst hq
    simp only [List.mem_singleton] at hr
    exact Or.inr hr
  | cons p rest ih =>
    obtain ⟨k, b⟩ := p
    intro q hq r hr
    by_cases h : k = f
    · simp only [addRow, if_pos h, List.mem_cons] at hq
      rcases hq with hq | hq
      · subst hq
        simp only [List.mem_append, List.mem_singleton] at hr
        rcases hr with hr | hr
        · exact Or.inl ⟨(k, b), by simp, hr⟩
        · exact Or.inr hr
      · exact Or.inl ⟨q, by simp [hq], hr⟩
    · simp only [addRow, if_neg h, List.mem_cons] at hq
      rcases hq with hq | hq
      · subst hq
        exact Or.inl ⟨(k, b), by simp, hr⟩
      · rcases ih q hq r hr with ⟨q2, hq2, hr2⟩ | hr2
        · exact Or.inl ⟨q2, by simp [hq2], hr2⟩
        · exact Or.inr hr2

/-- Every row stored after folding `buildStep` was stored before or is one
of the folded rows. -/
theorem foldl_buildStep_members (rows : List Record) :
    ∀ acc q, q ∈ rows.foldl buildStep acc → ∀ r ∈ q.2,
      (∃ q2 ∈ acc, r ∈ q2.2) ∨ r ∈ rows := by
  induction rows with
  | nil =>
    intro acc q hq r hr
    exact Or.inl ⟨q, hq, hr⟩
  | cons x xs ih =>
    intro acc q hq r hr
    simp only [List.foldl_cons] at hq
    rcases ih _ q hq r hr with ⟨q2, hq2, hr2⟩ | hr2
    · by_cases hf : famName x ≠ ""
      · have hb : buildStep acc x = addRow acc (famName x) x := by
          simp [buildStep, hf]
        rw [hb] at hq2
        rcases addRow_members acc (famName x) x q2 hq2 r hr2 with ⟨q3, hq3, hr3⟩ | hr3
        · exact Or.inl ⟨q3, hq3, hr3⟩
        · exact Or.inr (by simp [hr3])
      · have hb : buildStep acc x = acc := by
          simp [buildStep, hf]
        rw [hb] at hq2
        exact Or.inl ⟨q2, hq2, hr2⟩
    · exact Or.inr (by simp [hr2])

/-- Every row of a family bucket is one of the input rows. -/
theorem famRows_subset (rows : List Record) (name : String) :
    ∀ r ∈ famRows rows name, r ∈ rows := by
  intro r hr
  rw [famRows] at hr
  rcases hfind : (buildFamilies rows).find? (fun p => p.1 = name) with _ | p
  · rw [hfind] at hr
    simp at hr
  · rw [hfind] at hr
    have hp := List.mem_of_find?_eq_some hfind
    rw [buildFamilies_eq_foldl] at hp
    rcases foldl_buildStep_members rows [] p hp r hr with ⟨q2, hq2, _⟩ | h2
    · simp at hq2
    · exact h2
/-- Looking every distinct key back up recovers the buckets in order. -/
theorem map_famRows_of_nodup (fams : List (String × List Record))
    (h : (fams.map Prod.fst).Nodup) :
    (fams.map Prod.fst).map
        (fun name => match fams.find? (fun p => p.1 = name) with
          | some p => p.2
          | Option.none => []) =
      fams.map Prod.snd := by
  induction fams with
  | nil => rfl
  | cons p rest ih =>
    obtain ⟨k, b⟩ := p
    simp only [List.map_cons, List.nodup_cons] at h ⊢
    congr 1
    · simp [List.find?]
    · rw [← ih h.2]
      apply List.map_congr_left
      intro n hn
      have hnk : ¬ k = n := fun he => h.1 (he ▸ hn)
      simp [List.find?, hnk]

/-- The rendered buckets are a permutation of the stored buckets. -/
theorem rendered_buckets_perm (rows : List Record) :
    ((rendered_family_sections rows).map Prod.snd).Perm
      ((buildFamilies rows).map Prod.snd) := by
  have h1 : (rendered_family_sections rows).map Prod.snd =
      (sortedFamilyNames rows).map (fun name => famRows rows name) := by
    rw [rendered_family_sections, List.map_map]
    rfl
  have h2 : (sortedFamilyNames rows).Perm ((buildFamilies rows).map Prod.fst) :=
    List.perm_insertionSort pyStrLe _
  rw [h1, ← map_famRows_of_nodup (buildFamilies rows) (buildFamilies_keys_nodup rows)]
  exact h2.map _
/-- The export row count equals the number of nonblank-family input rows. -/
theorem flat_export_length (rows : List Record) :
    (flat_export rows).length = (rows.filter (fun r => famName r ≠ "")).length := by
  rw [flat_export, List.length_flatMap, ← buildFamilies_sizeSum]
  have h0 : (List.length ∘ fun p : String × List Record =>
      List.map (exportRow (summarize_family p.2)) p.2) =
      (fun p : String × List Record => p.2.length) := by
    funext p
    simp
  rw [h0]
  have h1 : (rendered_family_sections rows).map (fun p => p.2.length) =
      ((rendered_family_sections rows).map Prod.snd).map (fun b => b.length) := by
    rw [List.map_map]
    rfl
  rw [h1, ((rendered_buckets_perm rows).map (fun b => b.length)).sum_eq]
  rw [sizeSum, List.map_map]
  rfl
/-- `setKey` with a fresh key appends the pair. -/
theorem setKey_fresh (r : Record) (k : String) (v : Value)
    (h : ¬ k ∈ Record.keys r) : setKey r k v = r ++ [(k, v)] := by
  rw [setKey, if_neg h]

/-- Sequential dict assignments of fresh, pairwise-distinct keys append the
pairs in order. -/
theorem foldl_setKey_fresh :
    ∀ (ps : List (String × Value)) (r : Record),
      (ps.map Prod.fst).Nodup → (∀ n ∈ ps.map Prod.fst, ¬ n ∈ Record.keys r) →
      ps.foldl (fun acc p => setKey acc p.1 p.2) r = r ++ ps := by
  intro ps
  induction ps with
  | nil => intro r _ _; simp
  | cons p rest ih =>
    obtain ⟨k, v⟩ := p
    intro r hnodup hfresh
    simp only [List.map_cons, List.nodup_cons] at hnodup
    simp only [List.foldl_cons]
    rw [setKey_fresh r k v (hfresh k (by simp))]
    rw [ih (r ++ [(k, v)]) hnodup.2 ?_]
    · simp
    · intro n hn
      have h1 : ¬ n ∈ Record.keys r := hfresh n (by simp [hn])
      have h2 : ¬ n = k := fun he => hnodup.1 (he ▸ hn)
      simp [Record.keys, h2]
      simpa [Record.keys] using h1

/-- An export row with fresh derived columns is the record followed by the
six derived pairs. -/
theorem exportRow_eq_append (s : FamilyAiSummary) (r : Record)
    (h : ∀ n ∈ family_field_names, ¬ n ∈ Record.keys r) :
    exportRow s r = r ++ family_field_values s := by
  rw [exportRow]
  apply foldl_setKey_fresh
  · show family_field_names.Nodup
    decide
  · intro n hn
    exact h n hn

/-- The key list of an export row with fresh derived columns. -/
theorem exportRow_keys (s : FamilyAiSummary) (r : Record)
    (h : ∀ n ∈ family_field_names, ¬ n ∈ Record.keys r) :
    Record.keys (exportRow s r) = Record.keys r ++ family_field_names := by
  rw [exportRow_eq_append s r h, Record.keys, List.map_append]
  rfl

/-- Dropping the six derived columns from an export row recovers the
original record. -/
theorem exportRow_strip (s : FamilyAiSummary) (r : Record)
    (h : ∀ n ∈ family_field_names, ¬ n ∈ Record.keys r) :
    (exportRow s r).filter (fun p => !(family_field_names.contains p.1)) = r := by
  rw [exportRow_eq_append s r h, List.filter_append]
  have h1 : (family_field_values s).filter
      (fun p => !(family_field_names.contains p.1)) = [] := rfl
  rw [h1, List.append_nil]
  apply List.filter_eq_self.mpr
  intro p hp
  have hmem : p.1 ∈ Record.keys r := by
    simp [Record.keys]
    exact ⟨p.2, by simpa using hp⟩
  rcases hc : family_field_names.contains p.1 with _ | _
  · simp
  · exact absurd hmem (h p.1 (by simpa using hc))
/-- Every export row is the export of some input row under its family's
summary. -/
theorem flat_export_mem (rows : List Record) :
    ∀ er ∈ flat_export rows, ∃ r ∈ rows, ∃ s, er = exportRow s r := by
  intro er her
  rw [flat_export, List.mem_flatMap] at her
  obtain ⟨p, hp, hmem⟩ := her
  rw [List.mem_map] at hmem
  obtain ⟨r, hr, hexp⟩ := hmem
  rw [rendered_family_sections, List.mem_map] at hp
  obtain ⟨name, _, hpe⟩ := hp
  have hr2 : r ∈ famRows rows name := by
    rw [← hpe] at hr
    exact hr
  exact ⟨r, famRows_subset rows name r hr2, summarize_family p.2, hexp.symm⟩

/-- Pointwise-equal functions give equal flat maps. -/
theorem flatMap_congr_mem {α β : Type} (l : List α) (f g : α → List β)
    (h : ∀ a ∈ l, f a = g a) : l.flatMap f = l.flatMap g := by
  induction l with
  | nil => rfl
  | cons a rest ih =>
    simp only [List.flatMap_cons]
    rw [h a (by simp), ih (fun a2 ha2 => h a2 (by simp [ha2]))]
/-- Exporting then stripping a list of fresh-keyed records is the
identity. -/
theorem map_strip_map_export (s : FamilyAiSummary) (l : List Record)
    (h : ∀ r ∈ l, ∀ n ∈ family_field_names, ¬ n ∈ Record.keys r) :
    (l.map (exportRow s)).map
      (fun er => er.filter (fun p => !(family_field_names.contains p.1))) = l := by
  induction l with
  | nil => rfl
  | cons r rest ih =>
    simp only [List.map_cons]
    rw [exportRow_strip s r (h r (by simp)), ih (fun r2 hr2 => h r2 (by simp [hr2]))]

/-- C2 (amended): under one shared input column list `K` (disjoint from the
six derived names), the CSV mirrors the rendered report exactly — one CSV
row per input record with a nonblank family name, in the report's page
order; dropping the six derived columns from the CSV rows recovers exactly
the rendered fund records; every CSV row's columns are `K` followed by the
six `family_*` columns; and `write_csv` writes exactly these rows under
exactly that header. -/
theorem flat_export_csv_contract (rows : List Record) (K : List String)
    (hK : ∀ r ∈ rows, Record.keys r = K)
    (hdisj : ∀ n ∈ family_field_names, ¬ n ∈ K) :
    ((flat_export rows).length = (rows.filter (fun r => famName r ≠ "")).length) ∧
    (∀ er ∈ flat_export rows, Record.keys er = K ++ family_field_names) ∧
    ((flat_export rows).map
        (fun er => er.filter (fun p => !(family_field_names.contains p.1))) =
      rendered_fund_records rows) ∧
    (flat_export rows = [] →
      write_csv_family (flat_export rows) = CsvFileContents.emptyFile) ∧
    (∀ er rest, flat_export rows = er :: rest →
      write_csv_family (flat_export rows) =
        CsvFileContents.table (K ++ family_field_names) (flat_export rows)) := by
  have hfresh : ∀ r ∈ rows, ∀ n ∈ family_field_names, ¬ n ∈ Record.keys r := by
    intro r hr n hn
    rw [hK r hr]
    exact hdisj n hn
  have hkeys : ∀ er ∈ flat_export rows, Record.keys er = K ++ family_field_names := by
    intro er her
    obtain ⟨r, hr, s, rfl⟩ := flat_export_mem rows er her
    rw [exportRow_keys s r (hfresh r hr), hK r hr]
  refine ⟨flat_export_length rows, hkeys, ?_, ?_, ?_⟩
  · rw [flat_export, rendered_fund_records, List.map_flatMap]
    apply flatMap_congr_mem
    intro p hp
    have hsub : ∀ r ∈ p.2, r ∈ rows := by
      rw [rendered_family_sections, List.mem_map] at hp
      obtain ⟨name, _, hpe⟩ := hp
      intro r hr
      apply famRows_subset rows name r
      rw [← hpe] at hr
      exact hr
    exact map_strip_map_export _ _ (fun r hr => hfresh r (hsub r hr))
  · intro h
    rw [h]
    rfl
  · intro er rest h
    have hk2 : Record.keys er = K ++ family_field_names :=
      hkeys er (by rw [h]; simp)
    rw [h, ← hk2]
    rfl
/-- A record with no family-name column: the renderer and the CSV export
both drop it. -/
def c2_orphan : Record :=
  [("companyName", Value.str "Orphan Fund")]

/-- C2 (counterexample): one input record without a (nonblank) family name
yields zero rows in the rendered report and a zero-byte CSV — not "one row
per input record". -/
theorem flat_export_drops_blank_family :
    ([c2_orphan] : List Record).length = 1 ∧
    flat_export [c2_orphan] = [] ∧
    rendered_fund_records [c2_orphan] = [] ∧
    write_csv_family (flat_export [c2_orphan]) = CsvFileContents.emptyFile := by
  refine ⟨rfl, by decide, by decide, by decide⟩

/-- The concrete three-record run for the CSV contract: shared column list,
one record with a blank family name. -/
def c2_rows : List Record :=
  [[("ncen_family_investment_company_name", Value.str "Gamma Fund"),
    ("total_filings_in_window", Value.int 30)],
   [("ncen_family_investment_company_name", Value.str ""),
    ("total_filings_in_window", Value.int 10)],
   [("ncen_family_investment_company_name", Value.str "Delta Fund"),
    ("total_filings_in_window", Value.int 20)]]

/-- The shared column list of `c2_rows`. -/
def c2_keys : List String :=
  ["ncen_family_investment_company_name", "total_filings_in_window"]

/-- Instance of `flat_export_csv_contract` at the concrete three-record
run. -/
theorem flat_export_csv_contract_witness :
    ((flat_export c2_rows).length =
      (c2_rows.filter (fun r => famName r ≠ "")).length) ∧
    (∀ er ∈ flat_export c2_rows, Record.keys er = c2_keys ++ family_field_names) ∧
    ((flat_export c2_rows).map
        (fun er => er.filter (fun p => !(family_field_names.contains p.1))) =
      rendered_fund_records c2_rows) ∧
    (flat_export c2_rows = [] →
      write_csv_family (flat_export c2_rows) = CsvFileContents.emptyFile) ∧
    (∀ er rest, flat_export c2_rows = er :: rest →
      write_csv_family (flat_export c2_rows) =
        CsvFileContents.table (c2_keys ++ family_field_names) (flat_export c2_rows)) :=
  flat_export_csv_contract c2_rows c2_keys (by decide) (by decide)
/-- One fund of the concrete 5-fund witness family: 240 filings, 40 QES
filings, 4 agent groups, never filed by Edgar Agents LLC. -/
def c1_row : Record :=
  [("total_filings_in_window", Value.int 240), ("qes_filings_in_window", Value.int 40),
   ("total_agent_groups_used_in_window", Value.int 4),
   ("ever_filed_by_edgar_agents_llc_in_window", Value.str "false")]

/-- The concrete 5-fund witness family (sums 1200 / 200 / 20). -/
def c1_rows : List Record :=
  [c1_row, c1_row, c1_row, c1_row, c1_row]

/-- Instance of `family_example_scores` at the concrete 5-fund family. -/
theorem family_example_scores_witness :
    scores c1_rows = (4, 5) ∧
    (summarize_family c1_rows).potential_value_to_ea = "$$$" ∧
    (summarize_family c1_rows).openness_to_switch = "Very High" ∧
    (scoring_inputs c1_rows).qes_share = 50 / 3 ∧
    (scoring_inputs c1_rows).avg_agent_count = 4 :=
  family_example_scores c1_rows (by decide) (by decide) (by decide) (by decide)
    (by decide)
